import Mathlib

/-!
Verification of the realtime chat synchronization engine of the koordinator
frontend (`frontend/src/features/chat/ChatPage.tsx` and the notification
router in the `MainLayout` component).

The TypeScript event handlers are shallowly embedded as pure Lean functions
over an explicit client-state record. JavaScript objects keyed by numeric
ids (`Record<number, ...>`, `Map`) are modelled as association lists;
timestamps are natural numbers (milliseconds); `setTimeout` timers are
modelled as an explicit (user id, deadline) table together with a
fire-the-timer transition.
-/

namespace Koordinator

/-- A stored reaction, mirroring the `Reaction` wire shape
`{user_id, emoji, username, avatar_url?}`. -/
structure Reaction where
  user_id : Nat
  emoji : String
  username : String
  avatar_url : Option String
deriving DecidableEq, Repr

/-- A chat message as stored in the `messages` state of `ChatPage`
(the fields the realtime handlers read). -/
structure Message where
  id : Nat
  channel_id : Nat
  user_id : Nat
  parent_id : Option Nat
  reply_count : Nat
  reactions : List Reaction
deriving DecidableEq, Repr

/-- The realtime-relevant fields of the cached `Channel` object
(react-query key `['channel', channelId]`). -/
structure Channel where
  id : Nat
  mute_until : Option Nat
  others_read_id : Option Nat
  online_count : Nat
deriving DecidableEq, Repr

/-- A channel member as cached under `['channel_members', channelId]`. -/
structure Member where
  id : Nat
  is_online : Bool
  last_seen : Option Nat
deriving DecidableEq, Repr

/-- One entry of the `typingUsers` record: `{ name, timestamp }`. -/
structure TypingEntry where
  name : String
  timestamp : Nat
deriving DecidableEq, Repr

/-- Association-list upsert, modelling `obj[k] = v` on a JS object /
`Map.set`: an existing key is updated in place, a new key is appended. -/
def upsert {β : Type} (l : List (Nat × β)) (k : Nat) (v : β) : List (Nat × β) :=
  if l.any (fun p => p.1 == k) then
    l.map (fun p => if p.1 == k then (p.1, v) else p)
  else l ++ [(k, v)]

/-- Association-list removal, modelling `delete obj[k]`. -/
def removeKey {β : Type} (l : List (Nat × β)) (k : Nat) : List (Nat × β) :=
  l.filter (fun p => p.1 != k)

/-- Association-list lookup, modelling `obj[k]`. -/
def lookupKey {β : Type} (l : List (Nat × β)) (k : Nat) : Option β :=
  (l.find? (fun p => p.1 == k)).map (·.2)

/-- The component state of `ChatPage` touched by the websocket handler:
the per-channel message list, the typing record with its expiry timers
(deadline in ms), the cached channel and member objects, and the pieces of
UI state reset on channel change. `isConnected` is the transport flag. -/
structure ChatState where
  messages : List Message
  typingUsers : List (Nat × TypingEntry)
  typingTimers : List (Nat × Nat)
  channel : Option Channel
  members : List Member
  initialLastReadId : Option Nat
  activeThread : Option Message
  showParticipants : Bool
  isInitialLoad : Bool
  isConnected : Bool
deriving DecidableEq, Repr

/-- Ambient values the `onMessage` callback closes over:
the authenticated user's id (`user?.id`), the active route's channel id
(`channelId`), and the current time (`Date.now()`). -/
structure ChatEnv where
  selfId : Option Nat
  channelId : Option Nat
  now : Nat
deriving DecidableEq, Repr

/-! ### §4.4 Typing aggregator — the `typing` branch of `onMessage` -/

/-- The `typing` branch of `onMessage` (ChatPage.tsx): self-signals are
dropped; `is_typing` upserts the entry with `name = full_name || username`
and (re)arms a 5000 ms expiry timer; `!is_typing` deletes the entry and
cancels the timer. -/
def applyTyping (env : ChatEnv) (st : ChatState)
    (user_id : Nat) (full_name username : String) (is_typing : Bool) : ChatState :=
  if env.selfId = some user_id then st
  else if is_typing then
    { st with
      typingUsers := upsert st.typingUsers user_id
        ⟨if full_name = "" then username else full_name, env.now⟩
      typingTimers := upsert st.typingTimers user_id (env.now + 5000) }
  else
    { st with
      typingUsers := removeKey st.typingUsers user_id
      typingTimers := removeKey st.typingTimers user_id }

/-- Firing of the 5-second expiry timer armed by the `typing` branch:
the `setTimeout` callback deletes the user's entry; the timer itself is
consumed. -/
def fireTypingTimer (st : ChatState) (user_id : Nat) : ChatState :=
  { st with
    typingUsers := removeKey st.typingUsers user_id
    typingTimers := removeKey st.typingTimers user_id }

/-! ### §4.3 Channel message store — `new_message`, deletion, history merge -/

/-- The `reply_count` bump applied to the parent of an incoming reply. -/
def bumpReplyCount (pid : Nat) (m : Message) : Message :=
  if m.id = pid then { m with reply_count := m.reply_count + 1 } else m

/-- The first `setMessages` of the `new_message` branch: when the event
carries a (JS-truthy) `parent_id`, every loaded message with that id gets
its `reply_count` incremented. -/
def newMessagePrep (msgs : List Message) (e : Message) : List Message :=
  match e.parent_id with
  | some pid => if pid ≠ 0 then msgs.map (bumpReplyCount pid) else msgs
  | none => msgs

/-- The `new_message` branch of `onMessage`: the reply-count bump above,
then the message is appended unless some stored message already has its
id. -/
def applyNewMessage (msgs : List Message) (e : Message) : List Message :=
  if (newMessagePrep msgs e).any (fun m => m.id == e.id) then newMessagePrep msgs e
  else newMessagePrep msgs e ++ [e]

/-- The `message_deleted` branch: drop the message with the given id. -/
def applyMessageDeleted (msgs : List Message) (message_id : Nat) : List Message :=
  msgs.filter (fun m => m.id != message_id)

/-! ### §4.5 Reaction aggregator -/

/-- The `reaction_added` branch: on the target message, append the
reaction unless an equal (user_id, emoji) pair is already present. -/
def applyReactionAdded (msgs : List Message) (message_id : Nat) (r : Reaction) :
    List Message :=
  msgs.map fun m =>
    if m.id = message_id then
      if m.reactions.any (fun q => q.user_id == r.user_id && q.emoji == r.emoji) then m
      else { m with reactions := m.reactions ++ [r] }
    else m

/-- The `reaction_removed` branch: on the target message, filter out
reactions matching the (user_id, emoji) pair. -/
def applyReactionRemoved (msgs : List Message) (message_id user_id : Nat)
    (emoji : String) : List Message :=
  msgs.map fun m =>
    if m.id = message_id then
      { m with reactions :=
          m.reactions.filter (fun q => !(q.user_id == user_id && q.emoji == emoji)) }
    else m

/-- A reaction group produced by `groupReactions` for display:
`{emoji, count, users, avatars, hasMine}`. -/
structure ReactionGroup where
  emoji : String
  count : Nat
  users : List String
  avatars : List (Option String)
  hasMine : Bool
deriving DecidableEq, Repr

/-- One step of the `groupReactions` fold: a reaction either updates the
existing group for its emoji (in place) or opens a new group at the end,
matching JS object insertion order. -/
def addToGroups (me : Option Nat) (gs : List ReactionGroup) (r : Reaction) :
    List ReactionGroup :=
  if gs.any (fun g => g.emoji == r.emoji) then
    gs.map fun g =>
      if g.emoji == r.emoji then
        { g with
          count := g.count + 1
          users := g.users ++ [r.username]
          avatars := g.avatars ++ [r.avatar_url]
          hasMine := g.hasMine || (some r.user_id == me) }
      else g
  else gs ++ [⟨r.emoji, 1, [r.username], [r.avatar_url], some r.user_id == me⟩]

/-- Function `groupReactions` (ChatPage.tsx): group a message's reactions by emoji,
preserving first-seen emoji order; `hasMine` records whether the current
user (`user?.id`) contributed. -/
def groupReactions (me : Option Nat) (rs : List Reaction) : List ReactionGroup :=
  rs.foldl (addToGroups me) []

/-! ### §4.6/§4.8 read receipts, presence -/

/-- A `read_receipt` event `{channel_id, user_id, last_read_id}`. -/
structure ReadReceipt where
  channel_id : Nat
  user_id : Nat
  last_read_id : Nat
deriving DecidableEq, Repr

/-- The `read_receipt` branch of `onMessage`: when the receipt is for the
currently loaded channel, the cached channel's `others_read_id` becomes
`max(others_read_id || 0, last_read_id)`; otherwise the cache is untouched. -/
def applyReadReceipt (currentChannelId : Option Nat) (cache : Option Channel)
    (ev : ReadReceipt) : Option Channel :=
  if currentChannelId = some ev.channel_id then
    match cache with
    | none => none
    | some old =>
        some { old with
          others_read_id := some (max (old.others_read_id.getD 0) ev.last_read_id) }
  else cache

/-- The `user_presence` branch: flip the member's `is_online` flag; going
offline stamps `last_seen` with the current time. -/
def applyUserPresence (now : Nat) (members : List Member) (user_id : Nat)
    (statusOnline : Bool) : List Member :=
  members.map fun m =>
    if m.id = user_id then
      { m with
        is_online := statusOnline
        last_seen := if statusOnline then m.last_seen else some now }
    else m

/-! ### §4.2 Event decoder and the dispatch of `onMessage` -/

/-- The decoded websocket event variants handled by `ChatPage.onMessage`;
`unknown` stands for a frame whose `type` discriminator matches none of
the known kinds. -/
inductive WSMessage where
  | typing (user_id : Nat) (full_name username : String) (is_typing : Bool)
  | readReceipt (ev : ReadReceipt)
  | userPresence (user_id : Nat) (statusOnline : Bool)
  | reactionAdded (message_id : Nat) (r : Reaction)
  | reactionRemoved (message_id user_id : Nat) (emoji : String)
  | presence (online_count : Nat)
  | messageDeleted (message_id : Nat)
  | newMessage (m : Message)
  | unknown (ty : String)
deriving DecidableEq, Repr

/-- The `type` discriminators `onMessage` dispatches on (a frame with no
`type` field is treated as `new_message` by the source). -/
def knownEventTypes : List String :=
  ["typing", "read_receipt", "user_presence", "reaction_added",
   "reaction_removed", "presence", "message_deleted", "new_message"]

/-- Modelled from the spec: the event decoder lives in the `useWebSocket`
hook, which is not under `src/`. Per §4.2, `decode(rawFrame) ->
Result<Event, DecodeError>`; an unknown `type` value produces a
`DecodeError` that is logged and dropped. Only the discriminator check is
modelled here. -/
def decodeFrameType (ty : String) : Except String Unit :=
  if knownEventTypes.contains ty then Except.ok ()
  else Except.error ("DecodeError: unknown event type " ++ ty)

/-- Callback `onMessage` (ChatPage.tsx): dispatch one decoded event to the state
transformation of its branch. A frame whose type matches no branch falls
through every `if` and returns without touching any state. -/
def onMessage (env : ChatEnv) (st : ChatState) (d : WSMessage) : ChatState :=
  match d with
  | .typing uid fn un it => applyTyping env st uid fn un it
  | .readReceipt ev => { st with channel := applyReadReceipt env.channelId st.channel ev }
  | .userPresence uid s => { st with members := applyUserPresence env.now st.members uid s }
  | .reactionAdded mid r => { st with messages := applyReactionAdded st.messages mid r }
  | .reactionRemoved mid uid e =>
      { st with messages := applyReactionRemoved st.messages mid uid e }
  | .presence oc =>
      { st with channel := st.channel.map (fun ch => { ch with online_count := oc }) }
  | .messageDeleted mid => { st with messages := applyMessageDeleted st.messages mid }
  | .newMessage m => { st with messages := applyNewMessage st.messages m }
  | .unknown _ => st

/-- The `useLayoutEffect` that runs when `channelId` changes
(ChatPage.tsx): it clears `messages`, `initialLastReadId`, `activeThread`,
resets `showParticipants` and the initial-load flag — and nothing else. -/
def channelReset (st : ChatState) : ChatState :=
  { st with
    messages := []
    initialLastReadId := none
    activeThread := none
    showParticipants := true
    isInitialLoad := true }

/-! ### §4.3 history backfill -/

/-- Function `getNextPageParam` of the message-history `useInfiniteQuery`: a page
of exactly 50 messages yields the next page index, anything else marks
backfill exhausted (`undefined`). -/
def getNextPageParam (lastPage : List Message) (allPages : List (List Message)) :
    Option Nat :=
  if lastPage.length = 50 then some allPages.length else none

/-- One insertion into the JS `Map` built by the history-merge effect:
`new Map(combined.map(m => [m.id, m]))` — an existing key keeps its
position but takes the new value, a fresh key is appended. -/
def insertMapEntry (acc : List (Nat × Message)) (m : Message) : List (Nat × Message) :=
  if acc.any (fun p => p.1 == m.id) then
    acc.map (fun p => if p.1 == m.id then (p.1, m) else p)
  else acc ++ [(m.id, m)]

/-- Modelling `Array.from(new Map(ms.map(m => [m.id, m])).values())`: deduplicate a
message list by id, the last occurrence's value winning. -/
def jsMapValues (ms : List Message) : List Message :=
  (ms.foldl insertMapEntry []).map (·.2)

/-- The id order used by `.sort((a, b) => a.id - b.id)`. -/
def idLe (a b : Message) : Prop := a.id ≤ b.id

instance : DecidableRel idLe := fun a b => Nat.decLe a.id b.id

instance : IsTotal Message idLe := ⟨fun a b => Nat.le_total a.id b.id⟩

instance : IsTrans Message idLe := ⟨fun _ _ _ h h' => Nat.le_trans h h'⟩

/-- The history-merge effect of `ChatPage` (lines 514–529): flatten the
fetched pages, put them before the live `prev` state, deduplicate by id
through a JS `Map`, and sort ascending by id (JS sort is stable, so the
result is the one of any stable sort). -/
def mergeHistory (history prev : List Message) : List Message :=
  List.insertionSort idLe (jsMapValues (history ++ prev))

/-! ### §4.8 Notification router — `onMessageReceived` in `MainLayout` -/

/-- The payload `onMessageReceived` reads from a global message
notification: `{channel_id, is_mentioned?, message?: {document_id?,
sender_name?, content?}}`. -/
structure MsgNotification where
  channel_id : Nat
  is_mentioned : Option Bool
  msg_document_id : Option Nat
  msg_sender_name : Option String
deriving DecidableEq, Repr

/-- The notification preferences `onMessageReceived` reads from
`user` (`notify_sound` truthiness, `notify_browser !== false`). -/
structure UserPrefs where
  id : Nat
  notify_sound : Bool
  notify_browser : Option Bool
deriving DecidableEq, Repr

/-- Ambient values `onMessageReceived` closes over: the channel id parsed
from `location.pathname` (`/chat/(\d+)`), the cached channel list (mute
lookup), the user and the current time. -/
structure RouterEnv where
  currentChannelId : Option Nat
  channels : Option (List Channel)
  user : Option UserPrefs
  now : Nat
deriving DecidableEq, Repr

/-- The observable side effects of one `onMessageReceived` call. -/
structure RouterEffects where
  unreadAdded : Option Nat
  channelsInvalidated : Bool
  soundPlayed : Bool
  docUnreadAdded : Option (Nat × Nat)
  toastShown : Bool
  osNotifyRequested : Bool
deriving DecidableEq, Repr

/-- The no-effect outcome (every guard failed). -/
def RouterEffects.none : RouterEffects :=
  ⟨Option.none, false, false, Option.none, false, false⟩

/-- Modelling `channel?.mute_until ? new Date(channel.mute_until) > new Date() : false`
for the channel found in the cached list. -/
def isMutedChannel (channels : Option (List Channel)) (cid now : Nat) : Bool :=
  match channels with
  | some chs =>
      match chs.find? (fun c => c.id == cid) with
      | some ch =>
          match ch.mute_until with
          | some t => now < t
          | none => false
      | none => false
  | none => false

/-- Truthiness of `user?.notify_sound`. -/
def userNotifySound : Option UserPrefs → Bool
  | some u => u.notify_sound
  | none => false

/-- Modelling `user?.notify_browser !== false` (an absent user or preference counts
as enabled). -/
def userShouldNotify : Option UserPrefs → Bool
  | some u => u.notify_browser ≠ some false
  | none => true

/-- Modelling `!!msgData.message?.document_id` (JS truthiness: a 0 id is falsy). -/
def isDocumentShareMsg (d : MsgNotification) : Bool :=
  match d.msg_document_id with
  | some did => did ≠ 0
  | none => false

/-- The handler's entry guard
`!currentChannelIdNum || currentChannelIdNum !== channelId`: true when no
chat route is open, when the parsed route id is the JS-falsy 0, or when
the open channel differs from the event's. -/
def routerEnter (env : RouterEnv) (cid : Nat) : Bool :=
  match env.currentChannelId with
  | none => true
  | some c => c == 0 || c != cid

/-- Handler `onMessageReceived` (MainLayout, `components/ui/index.ts` 139–201):
when no chat route is open, the parsed route id is the (JS-falsy) 0, or it
differs from the event's channel, the handler increments the channel's
unread counter, invalidates the channel list, plays the sound when enabled
and the channel is not muted, records a document unread for document
shares, and — when browser notifications are not disabled, the event is
not a document share, and the channel is not muted — requests an OS
notification, plus an in-app toast only when the event mentions the user.
A truthy route id equal to the event's channel suppresses everything. -/
def onMessageReceived (env : RouterEnv) (d : MsgNotification) : RouterEffects :=
  let channelId := d.channel_id
  if routerEnter env channelId then
    let isMuted := isMutedChannel env.channels channelId env.now
    let mentioned := d.is_mentioned = some true
    { unreadAdded := some channelId
      channelsInvalidated := true
      soundPlayed := userNotifySound env.user && !isMuted
      docUnreadAdded :=
        if isDocumentShareMsg d then d.msg_document_id.map (fun did => (did, channelId))
        else Option.none
      toastShown :=
        userShouldNotify env.user && !isDocumentShareMsg d && !isMuted && mentioned
      osNotifyRequested := userShouldNotify env.user && !isDocumentShareMsg d && !isMuted }
  else RouterEffects.none

/-- Modelled from the spec: the server-side fan-out of message
notifications and the `useGlobalWebSocket` hook that delivers them are not
under `src/`. Per §4.6/§4.8 an inbound message notification handled by the
router is never authored by the current user (the handler's payload
carries no author field, so the author exclusion happens before
delivery). -/
def deliverMessageNotification (selfId authorId : Nat) (env : RouterEnv)
    (d : MsgNotification) : RouterEffects :=
  if authorId = selfId then RouterEffects.none
  else onMessageReceived env d

/-! ### Association-list lemmas -/

lemma lookupKey_removeKey_self {β : Type} (l : List (Nat × β)) (k : Nat) :
    lookupKey (removeKey l k) k = none := by
  unfold lookupKey removeKey
  rw [List.find?_eq_none.2]
  · rfl
  · intro p hp
    have := (List.mem_filter.1 hp).2
    simp only [bne_iff_ne, ne_eq] at this
    simp [this]

lemma lookupKey_map_update {β : Type} (l : List (Nat × β)) (k : Nat) (v : β)
    (h : l.any (fun p => p.1 == k) = true) :
    lookupKey (l.map (fun p => if p.1 == k then (p.1, v) else p)) k = some v := by
  induction l with
  | nil => simp at h
  | cons p l ih =>
      by_cases hp : p.1 = k
      · simp [lookupKey, List.find?, hp]
      · have hp' : (p.1 == k) = false := by simp [hp]
        have hany : l.any (fun q => q.1 == k) = true := by
          simpa [List.any_cons, hp'] using h
        simpa [lookupKey, List.find?, hp'] using ih hany

lemma lookupKey_append_single {β : Type} (l : List (Nat × β)) (k : Nat) (v : β)
    (h : l.any (fun p => p.1 == k) = false) :
    lookupKey (l ++ [(k, v)]) k = some v := by
  induction l with
  | nil => simp [lookupKey, List.find?]
  | cons p l ih =>
      have hp' : (p.1 == k) = false := by
        by_contra hc
        simp only [Bool.not_eq_false] at hc
        simp [List.any_cons, hc] at h
      have htail : l.any (fun q => q.1 == k) = false := by
        simpa [List.any_cons, hp'] using h
      simpa [lookupKey, List.find?, hp'] using ih htail

lemma lookupKey_upsert_self {β : Type} (l : List (Nat × β)) (k : Nat) (v : β) :
    lookupKey (upsert l k v) k = some v := by
  unfold upsert
  cases h : l.any (fun p => p.1 == k) with
  | true =>
      simp only [h, if_true]
      exact lookupKey_map_update l k v h
  | false =>
      simp only [h, Bool.false_eq_true, if_false]
      exact lookupKey_append_single l k v h

/-!
### C9 — backfill exhaustion
-/

/-- C9: a history page with fewer than 50 messages marks backfill
exhausted (`getNextPageParam` returns `undefined`); a page of exactly 50
yields the next page index. -/
theorem getNextPageParam_spec (lastPage : List Message)
    (allPages : List (List Message)) :
    (lastPage.length < 50 → getNextPageParam lastPage allPages = none) ∧
    (lastPage.length = 50 → getNextPageParam lastPage allPages = some allPages.length) := by
  constructor
  · intro h
    unfold getNextPageParam
    have : lastPage.length ≠ 50 := Nat.ne_of_lt h
    simp [this]
  · intro h
    unfold getNextPageParam
    simp [h]

/-- Witness for C9 at concrete pages: the empty page exhausts backfill and
a full page of 50 yields page index 1. -/
theorem getNextPageParam_spec_witness :
    getNextPageParam [] [[]] = none ∧
    getNextPageParam (List.replicate 50 ⟨1, 1, 1, none, 0, []⟩)
      [List.replicate 50 ⟨1, 1, 1, none, 0, []⟩] = some 1 :=
  ⟨(getNextPageParam_spec [] [[]]).1 (by decide),
   (getNextPageParam_spec _ _).2 (by simp)⟩

/-!
### C7 — typing entry lifecycle
-/

/-- C7: a typing signal from the user's own id leaves the state untouched;
an explicit `is_typing:false` from another user removes the entry and its
timer immediately; an `is_typing:true` signal stamps the entry and arms an
expiry timer due exactly 5000 ms after the signal, whose firing removes
the entry. -/
theorem typing_lifecycle (env : ChatEnv) (st : ChatState) (uid : Nat)
    (fn un : String) (it : Bool) :
    (applyTyping { env with selfId := some uid } st uid fn un it = st) ∧
    (env.selfId ≠ some uid →
      lookupKey (applyTyping env st uid fn un false).typingUsers uid = none ∧
      lookupKey (applyTyping env st uid fn un false).typingTimers uid = none) ∧
    (env.selfId ≠ some uid →
      lookupKey (applyTyping env st uid fn un true).typingUsers uid =
        some ⟨if fn = "" then un else fn, env.now⟩ ∧
      lookupKey (applyTyping env st uid fn un true).typingTimers uid =
        some (env.now + 5000)) ∧
    (lookupKey (fireTypingTimer st uid).typingUsers uid = none ∧
     lookupKey (fireTypingTimer st uid).typingTimers uid = none) := by
  refine ⟨?_, ?_, ?_, ?_, ?_⟩
  · unfold applyTyping
    simp
  · intro h
    unfold applyTyping
    simp only [h, if_neg, if_false]
    exact ⟨lookupKey_removeKey_self _ _, lookupKey_removeKey_self _ _⟩
  · intro h
    unfold applyTyping
    simp only [h, if_neg, if_true]
    exact ⟨lookupKey_upsert_self _ _ _, lookupKey_upsert_self _ _ _⟩
  · exact lookupKey_removeKey_self _ _
  · exact lookupKey_removeKey_self _ _

/-- Witness for C7 at a concrete state: user 3 signals while user 2 has a
stale entry; the stop signal and the timer firing both remove entries, the
start signal arms a timer due at 1100 + 5000. -/
theorem typing_lifecycle_witness :
    ((⟨some 1, some 9, 1100⟩ : ChatEnv).selfId ≠ some 3) ∧
    (applyTyping ⟨some 3, some 9, 1100⟩
        ⟨[], [(3, ⟨"Bob", 40⟩)], [(3, 5040)], none, [], none, none, true, true, true⟩
        3 ("Bob") ("bob") true =
      ⟨[], [(3, ⟨"Bob", 40⟩)], [(3, 5040)], none, [], none, none, true, true, true⟩) ∧
    (lookupKey (applyTyping ⟨some 1, some 9, 1100⟩
        ⟨[], [(3, ⟨"Bob", 40⟩)], [(3, 5040)], none, [], none, none, true, true, true⟩
        3 ("Bob") ("bob") false).typingUsers 3 = none) ∧
    (lookupKey (applyTyping ⟨some 1, some 9, 1100⟩
        ⟨[], [], [], none, [], none, none, true, true, true⟩
        3 ("Bob") ("bob") true).typingTimers 3 = some (1100 + 5000)) := by
  refine ⟨by decide, ?_, ?_, ?_⟩
  · exact (typing_lifecycle ⟨some 3, some 9, 1100⟩ _ 3 ("Bob") ("bob") true).1
  · exact ((typing_lifecycle ⟨some 1, some 9, 1100⟩ _ 3 ("Bob") ("bob") true).2.1
      (by decide)).1
  · exact ((typing_lifecycle ⟨some 1, some 9, 1100⟩ _ 3 ("Bob") ("bob") true).2.2.1
      (by decide)).2

/-!
### C2 — channel switch and the typing set
-/

/-- C2 counterexample: with a typing entry for user 2 left over from the
previous channel, the reset that runs on a channel switch leaves the entry
in place — the consumer still sees it in the new channel. -/
theorem channelReset_keeps_typing_cex :
    lookupKey (channelReset
        ⟨[], [(2, ⟨"Alice", 100⟩)], [(2, 5100)], none, [], none, none, true, true, true⟩
      ).typingUsers 2 = some ⟨"Alice", 100⟩ ∧
    (channelReset
        ⟨[], [(2, ⟨"Alice", 100⟩)], [(2, 5100)], none, [], none, none, true, true, true⟩
      ).typingUsers ≠ [] := by
  constructor
  · rfl
  · decide

/-- C2 amended: the reset on a channel switch clears the message list, the
frozen last-read id, the active thread and the participants flag, but
leaves the typing record and its timers untouched; typing entries are
removed only by an explicit stop signal or by their 5-second expiry. -/
theorem channelReset_spec (st : ChatState) :
    (channelReset st).typingUsers = st.typingUsers ∧
    (channelReset st).typingTimers = st.typingTimers ∧
    (channelReset st).messages = [] ∧
    (channelReset st).initialLastReadId = none ∧
    (channelReset st).activeThread = none ∧
    (channelReset st).showParticipants = true :=
  ⟨rfl, rfl, rfl, rfl, rfl, rfl⟩

/-!
### C8 — unknown frame type
-/

/-- C8: a frame whose `type` discriminator is not a known event kind is
rejected by the decode boundary with a `DecodeError` (decoder modelled
from the spec, see `decodeFrameType`), and the `onMessage` handler leaves
every piece of component state — messages, typing set, cached channel and
members, UI flags — and the connection flag unchanged. -/
theorem unknown_frame_no_state_change (env : ChatEnv) (st : ChatState) (ty : String) :
    (decodeFrameType ("unknown_kind") =
      Except.error ("DecodeError: unknown event type unknown_kind")) ∧
    (ty ∉ knownEventTypes →
      onMessage env st (WSMessage.unknown ty) = st ∧
      (onMessage env st (WSMessage.unknown ty)).isConnected = st.isConnected) := by
  constructor
  · rfl
  · intro _
    exact ⟨rfl, rfl⟩

/-- Witness for C8 at the spec's own example: `type: "unknown_kind"` is
not a known event kind and handling it changes nothing. -/
theorem unknown_frame_no_state_change_witness :
    ("unknown_kind" ∉ knownEventTypes) ∧
    onMessage ⟨some 1, some 9, 0⟩
        ⟨[], [], [], none, [], none, none, true, true, true⟩
        (WSMessage.unknown ("unknown_kind")) =
      ⟨[], [], [], none, [], none, none, true, true, true⟩ :=
  ⟨by decide,
   ((unknown_frame_no_state_change ⟨some 1, some 9, 0⟩
      ⟨[], [], [], none, [], none, none, true, true, true⟩ "unknown_kind").2
      (by decide)).1⟩

/-!
### C10 — read-receipt monotonicity
-/

/-- Convenience projection: the `others_read_id || 0` value of the cached
channel, 0 when no channel is cached. -/
def othersReadVal (c : Option Channel) : Nat :=
  (c.bind Channel.others_read_id).getD 0

lemma applyReadReceipt_step_mono (cur : Option Nat) (cache : Option Channel)
    (ev : ReadReceipt) :
    othersReadVal cache ≤ othersReadVal (applyReadReceipt cur cache ev) := by
  unfold applyReadReceipt
  by_cases h : cur = some ev.channel_id
  · simp only [h, if_true]
    cases cache with
    | none => exact Nat.le_refl _
    | some ch =>
        unfold othersReadVal
        simp only [Option.bind_some]
        exact Nat.le_max_left _ _
  · simp [h]

/-- C10: a `read_receipt` for the loaded channel sets `others_read_id` to
`max(others_read_id || 0, last_read_id)`, and over any sequence of
receipts the stored value never decreases. -/
theorem read_receipt_monotone (cur : Option Nat) (cache : Option Channel)
    (ev : ReadReceipt) :
    (∀ ch, cur = some ev.channel_id → cache = some ch →
      applyReadReceipt cur cache ev =
        some { ch with
               others_read_id := some (max (ch.others_read_id.getD 0) ev.last_read_id) }) ∧
    (∀ evs : List ReadReceipt,
      othersReadVal cache ≤ othersReadVal (evs.foldl (applyReadReceipt cur) cache)) := by
  constructor
  · intro ch hcur hcache
    unfold applyReadReceipt
    simp [hcur, hcache]
  · intro evs
    induction evs generalizing cache with
    | nil => exact Nat.le_refl _
    | cons e evs ih =>
        exact Nat.le_trans (applyReadReceipt_step_mono cur cache e)
          (ih (applyReadReceipt cur cache e))

/-- Witness for C10: a receipt with `last_read_id = 7` raises
`others_read_id` from 5 to 7, and a later receipt with `last_read_id = 3`
leaves it at 7. -/
theorem read_receipt_monotone_witness :
    applyReadReceipt (some 9) (some ⟨9, none, some 5, 0⟩) ⟨9, 2, 7⟩ =
      some ⟨9, none, some 7, 0⟩ ∧
    othersReadVal (some ⟨9, none, some 5, 0⟩) ≤
      othersReadVal ([⟨9, 2, 7⟩, ⟨9, 2, 3⟩].foldl (applyReadReceipt (some 9))
        (some ⟨9, none, some 5, 0⟩)) :=
  ⟨(read_receipt_monotone (some 9) (some ⟨9, none, some 5, 0⟩) ⟨9, 2, 7⟩).1
      ⟨9, none, some 5, 0⟩ rfl rfl,
   (read_receipt_monotone (some 9) (some ⟨9, none, some 5, 0⟩) ⟨9, 2, 7⟩).2 _⟩

/-!
### C3 / C4 — notification router
-/

lemma routerEnter_iff (env : RouterEnv) (cid : Nat)
    (hpos : ∀ c, env.currentChannelId = some c → 0 < c) :
    routerEnter env cid = true ↔ env.currentChannelId ≠ some cid := by
  unfold routerEnter
  cases hc : env.currentChannelId with
  | none => simp
  | some c =>
      have hcpos := hpos c hc
      have hc0 : (c == 0) = false := by
        simp only [beq_eq_false_iff_ne, ne_eq]
        omega
      by_cases heq : c = cid
      · subst heq
        simp [hc0]
      · simp [hc0, heq]

lemma routerEffects_none_fields :
    RouterEffects.none.unreadAdded = none ∧
    RouterEffects.none.soundPlayed = false ∧
    RouterEffects.none.toastShown = false ∧
    RouterEffects.none.osNotifyRequested = false :=
  ⟨rfl, rfl, rfl, rfl⟩

/-- C3 counterexample: a background message for channel 2 (route shows
channel 1, nothing muted, sound and browser notifications enabled, not a
mention) is fully processed — unread incremented, sound played, OS
notification requested — yet no in-app toast is shown, refuting
"in-app toast (always, unless muted)". -/
theorem router_toast_not_always_cex :
    (onMessageReceived ⟨some 1, some [], some ⟨7, true, some true⟩, 1000⟩
        ⟨2, some false, none, none⟩).unreadAdded = some 2 ∧
    (onMessageReceived ⟨some 1, some [], some ⟨7, true, some true⟩, 1000⟩
        ⟨2, some false, none, none⟩).soundPlayed = true ∧
    (onMessageReceived ⟨some 1, some [], some ⟨7, true, some true⟩, 1000⟩
        ⟨2, some false, none, none⟩).osNotifyRequested = true ∧
    (onMessageReceived ⟨some 1, some [], some ⟨7, true, some true⟩, 1000⟩
        ⟨2, some false, none, none⟩).toastShown = false := by
  decide

/-- C3 amended: when the user is viewing the event's channel every effect
is suppressed; otherwise sound plays iff enabled and not muted, an OS
notification is requested iff browser notifications are not disabled, the
event is not a document share and the channel is not muted, and an in-app
toast appears only when, additionally, the event mentions the user
(self-authored events are excluded before delivery, see
`deliverMessageNotification`; the OS permission check lives inside the
external notification service). -/
theorem router_effects_characterization (env : RouterEnv) (d : MsgNotification)
    (hpos : ∀ c, env.currentChannelId = some c → 0 < c) :
    (env.currentChannelId = some d.channel_id →
      onMessageReceived env d = RouterEffects.none) ∧
    ((onMessageReceived env d).soundPlayed = true ↔
      (env.currentChannelId ≠ some d.channel_id ∧
       userNotifySound env.user = true ∧
       isMutedChannel env.channels d.channel_id env.now = false)) ∧
    ((onMessageReceived env d).osNotifyRequested = true ↔
      (env.currentChannelId ≠ some d.channel_id ∧
       userShouldNotify env.user = true ∧
       isDocumentShareMsg d = false ∧
       isMutedChannel env.channels d.channel_id env.now = false)) ∧
    ((onMessageReceived env d).toastShown = true ↔
      ((onMessageReceived env d).osNotifyRequested = true ∧
       d.is_mentioned = some true)) := by
  have henter := routerEnter_iff env d.channel_id hpos
  refine ⟨?_, ?_, ?_, ?_⟩
  · intro hview
    have hfalse : routerEnter env d.channel_id = false := by
      cases h : routerEnter env d.channel_id with
      | false => rfl
      | true => exact absurd hview (henter.1 h)
    unfold onMessageReceived
    simp [hfalse]
  · unfold onMessageReceived
    cases h : routerEnter env d.channel_id with
    | false =>
        have hview : env.currentChannelId = some d.channel_id := by
          by_contra hne
          rw [henter.2 hne] at h
          cases h
        simp [h, hview, RouterEffects.none]
    | true =>
        simp only [h, if_true, Bool.and_eq_true, Bool.not_eq_true']
        exact ⟨fun ⟨hs, hm⟩ => ⟨henter.1 h, hs, hm⟩, fun ⟨_, hs, hm⟩ => ⟨hs, hm⟩⟩
  · unfold onMessageReceived
    cases h : routerEnter env d.channel_id with
    | false =>
        have hview : env.currentChannelId = some d.channel_id := by
          by_contra hne
          rw [henter.2 hne] at h
          cases h
        simp [h, hview, RouterEffects.none]
    | true =>
        simp only [h, if_true, Bool.and_eq_true, Bool.not_eq_true']
        exact ⟨fun ⟨⟨hn, hd⟩, hm⟩ => ⟨henter.1 h, hn, hd, hm⟩,
               fun ⟨_, hn, hd, hm⟩ => ⟨⟨hn, hd⟩, hm⟩⟩
  · unfold onMessageReceived
    cases h : routerEnter env d.channel_id with
    | false =>
        simp [h, RouterEffects.none]
    | true =>
        simp only [h, if_true, Bool.and_eq_true, Bool.not_eq_true',
          decide_eq_true_eq]

/-- Witness for C3 (amended) at a concrete input: viewing channel 2
suppresses everything; the same event seen from channel 1 plays the sound. -/
theorem router_effects_characterization_witness :
    onMessageReceived ⟨some 2, some [], some ⟨7, true, some true⟩, 1000⟩
      ⟨2, some true, none, none⟩ = RouterEffects.none ∧
    (onMessageReceived ⟨some 1, some [], some ⟨7, true, some true⟩, 1000⟩
      ⟨2, some true, none, none⟩).soundPlayed = true :=
  ⟨(router_effects_characterization ⟨some 2, some [], some ⟨7, true, some true⟩, 1000⟩
      ⟨2, some true, none, none⟩
      (by intro c hc; injection hc with h; omega)).1 rfl,
   ((router_effects_characterization ⟨some 1, some [], some ⟨7, true, some true⟩, 1000⟩
      ⟨2, some true, none, none⟩
      (by intro c hc; injection hc with h; omega)).2.1).2
      ⟨by decide, by decide, by decide⟩⟩

/-- C4: with the author-exclusion of the delivery layer (modelled from the
spec), the per-channel unread counter is incremented exactly when the
message is not self-authored and its channel is not the one currently
open. -/
theorem unread_increment_iff (selfId authorId : Nat) (env : RouterEnv)
    (d : MsgNotification)
    (hpos : ∀ c, env.currentChannelId = some c → 0 < c) :
    (deliverMessageNotification selfId authorId env d).unreadAdded = some d.channel_id ↔
      (authorId ≠ selfId ∧ env.currentChannelId ≠ some d.channel_id) := by
  have henter := routerEnter_iff env d.channel_id hpos
  unfold deliverMessageNotification
  by_cases ha : authorId = selfId
  · simp [ha, RouterEffects.none]
  · simp only [ha, if_false]
    unfold onMessageReceived
    cases h : routerEnter env d.channel_id with
    | false =>
        have hview : env.currentChannelId = some d.channel_id := by
          by_contra hne
          rw [henter.2 hne] at h
          cases h
        simp [h, hview, RouterEffects.none]
    | true =>
        simp [h, ha, henter.1 h]

/-- Witness for C4: author 8 ≠ self 7 and no chat route open — the unread
counter for channel 2 is incremented. -/
theorem unread_increment_iff_witness :
    (deliverMessageNotification 7 8 ⟨some 1, none, none, 0⟩
      ⟨2, none, none, none⟩).unreadAdded = some 2 :=
  (unread_increment_iff 7 8 ⟨some 1, none, none, 0⟩ ⟨2, none, none, none⟩
    (by intro c hc; injection hc with h; omega)).2 ⟨by decide, by decide⟩

/-!
### C1 — `new_message` reapplication
-/

lemma bumpReplyCount_id (pid : Nat) (m : Message) :
    (bumpReplyCount pid m).id = m.id := by
  unfold bumpReplyCount
  split <;> rfl

lemma newMessagePrep_ids (msgs : List Message) (e : Message) :
    (newMessagePrep msgs e).map (fun m => m.id) = msgs.map (fun m => m.id) := by
  cases hp : e.parent_id with
  | none => simp [newMessagePrep, hp]
  | some pid =>
      by_cases h : pid ≠ 0
      · simp only [newMessagePrep, hp]
        rw [if_pos h, List.map_map]
        exact List.map_congr_left (fun m _ => bumpReplyCount_id pid m)
      · simp only [newMessagePrep, hp]
        rw [if_neg h]

lemma any_id_eq (l : List Message) (i : Nat) :
    (l.any (fun m => m.id == i)) = true ↔ i ∈ l.map (fun m => m.id) := by
  simp only [List.any_eq_true, List.mem_map, beq_iff_eq]

lemma applyNewMessage_ids_mem (msgs : List Message) (e : Message) :
    e.id ∈ (applyNewMessage msgs e).map (fun m => m.id) := by
  unfold applyNewMessage
  cases h : (newMessagePrep msgs e).any (fun m => m.id == e.id) with
  | true =>
      simp only [h, if_true]
      exact (any_id_eq _ _).1 h
  | false =>
      simp only [h, Bool.false_eq_true, if_false, List.map_append]
      exact List.mem_append_right _ (by simp)

/-- C1 counterexample: a reply event (id 2, parent 1) applied twice to a
store holding the parent bumps the parent's `reply_count` to 2, while a
single application leaves it at 1 — re-applying the same `new_message`
event changes the store state. -/
theorem newMessage_not_idempotent_cex :
    applyNewMessage (applyNewMessage [⟨1, 1, 10, none, 0, []⟩] ⟨2, 1, 11, some 1, 0, []⟩)
        ⟨2, 1, 11, some 1, 0, []⟩ =
      [⟨1, 1, 10, none, 2, []⟩, ⟨2, 1, 11, some 1, 0, []⟩] ∧
    applyNewMessage [⟨1, 1, 10, none, 0, []⟩] ⟨2, 1, 11, some 1, 0, []⟩ =
      [⟨1, 1, 10, none, 1, []⟩, ⟨2, 1, 11, some 1, 0, []⟩] ∧
    applyNewMessage (applyNewMessage [⟨1, 1, 10, none, 0, []⟩] ⟨2, 1, 11, some 1, 0, []⟩)
        ⟨2, 1, 11, some 1, 0, []⟩ ≠
      applyNewMessage [⟨1, 1, 10, none, 0, []⟩] ⟨2, 1, 11, some 1, 0, []⟩ := by
  refine ⟨by decide, by decide, by decide⟩

/-- C1 amended: re-applying the same `new_message` event never adds a
second copy of the message (the id multiset of the store is unchanged by
the second application), and for an event without a `parent_id` the second
application is a strict no-op; but an event carrying a `parent_id` whose
parent is loaded increments the parent's `reply_count` on every
application, so full-state idempotence fails for replies (see the
counterexample). -/
theorem newMessage_reapply_spec (msgs : List Message) (e : Message) :
    ((applyNewMessage (applyNewMessage msgs e) e).map (fun m => m.id) =
      (applyNewMessage msgs e).map (fun m => m.id)) ∧
    (e.parent_id = none →
      applyNewMessage (applyNewMessage msgs e) e = applyNewMessage msgs e) := by
  have h2 : (newMessagePrep (applyNewMessage msgs e) e).any (fun m => m.id == e.id)
      = true := by
    rw [any_id_eq, newMessagePrep_ids]
    exact applyNewMessage_ids_mem msgs e
  constructor
  · show (applyNewMessage (applyNewMessage msgs e) e).map _ = _
    conv_lhs => rw [applyNewMessage]
    simp only [h2, if_true]
    exact newMessagePrep_ids _ _
  · intro hpar
    have hprep : newMessagePrep (applyNewMessage msgs e) e =
        applyNewMessage msgs e := by
      unfold newMessagePrep
      rw [hpar]
    conv_lhs => rw [applyNewMessage]
    rw [hprep] at h2 ⊢
    simp only [h2, if_true]

/-- Witness for C1 (amended) at a concrete input: a plain message (no
`parent_id`) applied twice equals a single application. -/
theorem newMessage_reapply_spec_witness :
    applyNewMessage (applyNewMessage [] ⟨5, 1, 10, none, 0, []⟩) ⟨5, 1, 10, none, 0, []⟩ =
      applyNewMessage [] ⟨5, 1, 10, none, 0, []⟩ :=
  (newMessage_reapply_spec [] ⟨5, 1, 10, none, 0, []⟩).2 rfl

/-!
### C6 — reaction add/remove and grouped display
-/

lemma addToGroups_emoji_free (me : Option Nat) (gs : List ReactionGroup)
    (r : Reaction) (em : String) (hgs : ∀ g ∈ gs, g.emoji ≠ em)
    (hr : r.emoji ≠ em) : ∀ g ∈ addToGroups me gs r, g.emoji ≠ em := by
  intro g hg
  unfold addToGroups at hg
  by_cases h : gs.any (fun g => g.emoji == r.emoji) = true
  · rw [if_pos h] at hg
    obtain ⟨g0, hg0, heq⟩ := List.mem_map.1 hg
    subst heq
    by_cases he : (g0.emoji == r.emoji) = true
    · simp only [he, if_true]
      exact hgs g0 hg0
    · simp only [he, Bool.false_eq_true, if_false]
      exact hgs g0 hg0
  · rw [if_neg h] at hg
    rcases List.mem_append.1 hg with hmem | hmem
    · exact hgs g hmem
    · have : g = ⟨r.emoji, 1, [r.username], [r.avatar_url], some r.user_id == me⟩ := by
        simpa using hmem
      rw [this]
      exact hr

lemma foldl_groups_emoji_free (me : Option Nat) (rs : List Reaction) (em : String) :
    ∀ acc : List ReactionGroup, (∀ g ∈ acc, g.emoji ≠ em) →
      (∀ q ∈ rs, q.emoji ≠ em) →
      ∀ g ∈ rs.foldl (addToGroups me) acc, g.emoji ≠ em := by
  induction rs with
  | nil =>
      intro acc hacc _ g hg
      exact hacc g hg
  | cons q rs ih =>
      intro acc hacc hrs g hg
      simp only [List.foldl_cons] at hg
      exact ih (addToGroups me acc q)
        (addToGroups_emoji_free me acc q em hacc (hrs q (by simp)))
        (fun p hp => hrs p (List.mem_cons_of_mem _ hp)) g hg

lemma addToGroups_not_found (me : Option Nat) (gs : List ReactionGroup)
    (r : Reaction) (h : gs.any (fun g => g.emoji == r.emoji) = false) :
    addToGroups me gs r =
      gs ++ [⟨r.emoji, 1, [r.username], [r.avatar_url], some r.user_id == me⟩] := by
  unfold addToGroups
  rw [h]
  simp

lemma groupReactions_append_fresh (me : Option Nat) (rs : List Reaction)
    (r : Reaction) (h : ∀ q ∈ rs, q.emoji ≠ r.emoji) :
    groupReactions me (rs ++ [r]) =
      groupReactions me rs ++
        [⟨r.emoji, 1, [r.username], [r.avatar_url], some r.user_id == me⟩] := by
  unfold groupReactions
  rw [List.foldl_append]
  simp only [List.foldl_cons, List.foldl_nil]
  have hfree : ∀ g ∈ List.foldl (addToGroups me) [] rs, g.emoji ≠ r.emoji :=
    foldl_groups_emoji_free me rs r.emoji [] (by simp) h
  have hany : (List.foldl (addToGroups me) [] rs).any (fun g => g.emoji == r.emoji)
      = false := by
    rw [List.any_eq_false]
    intro g hg
    simpa using hfree g hg
  exact addToGroups_not_found me _ r hany

/-- C6: adding the same (user, emoji) reaction twice equals adding it
once; removing a reaction absent from the target message leaves the store
unchanged; and after the double add of a reaction whose emoji was not yet
present on the message, the message stores exactly one matching reaction
and its grouped display shows that emoji with count 1, the sender's name
and avatar, and `hasMine` true exactly when the sender is the current
user. -/
theorem reaction_events_spec (msgs : List Message) (mid : Nat) (r : Reaction)
    (u : Nat) (em : String) (me : Option Nat) :
    (applyReactionAdded (applyReactionAdded msgs mid r) mid r =
      applyReactionAdded msgs mid r) ∧
    ((∀ m ∈ msgs, m.id = mid → ∀ q ∈ m.reactions, ¬(q.user_id = u ∧ q.emoji = em)) →
      applyReactionRemoved msgs mid u em = msgs) ∧
    ((∀ m ∈ msgs, m.id = mid → ∀ q ∈ m.reactions, q.emoji ≠ r.emoji) →
      ∀ m' ∈ applyReactionAdded (applyReactionAdded msgs mid r) mid r, m'.id = mid →
        ((m'.reactions.filter
            (fun q => q.user_id == r.user_id && q.emoji == r.emoji)).length = 1 ∧
         (groupReactions me m'.reactions).filter (fun g => g.emoji == r.emoji) =
           [⟨r.emoji, 1, [r.username], [r.avatar_url], some r.user_id == me⟩])) := by
  have hidem : applyReactionAdded (applyReactionAdded msgs mid r) mid r =
      applyReactionAdded msgs mid r := by
    unfold applyReactionAdded
    rw [List.map_map]
    apply List.map_congr_left
    intro m _
    simp only [Function.comp_apply]
    by_cases hid : m.id = mid
    · by_cases hany : m.reactions.any
          (fun q => q.user_id == r.user_id && q.emoji == r.emoji) = true
      · rw [if_pos hid, if_pos hany, if_pos hid, if_pos hany]
      · rw [if_pos hid, if_neg hany]
        have hany2 : ((m.reactions ++ [r]).any
            (fun q => q.user_id == r.user_id && q.emoji == r.emoji)) = true := by
          simp [List.any_append]
        simp only [if_pos hid, hany2, if_true]
    · rw [if_neg hid, if_neg hid]
  refine ⟨hidem, ?_, ?_⟩
  · intro habs
    unfold applyReactionRemoved
    conv_rhs => rw [← List.map_id msgs]
    apply List.map_congr_left
    intro m hm
    by_cases hid : m.id = mid
    · rw [if_pos hid]
      have hfilter : m.reactions.filter
          (fun q => !(q.user_id == u && q.emoji == em)) = m.reactions := by
        rw [List.filter_eq_self]
        intro q hq
        have := habs m hm hid q hq
        simp only [Bool.not_eq_eq_eq_not, Bool.not_true, Bool.and_eq_false_iff]
        by_cases hqu : q.user_id = u
        · right
          have : ¬q.emoji = em := fun hc => this ⟨hqu, hc⟩
          simp [this]
        · left
          simp [hqu]
      rw [hfilter]
      rfl
    · rw [if_neg hid]
      rfl
  · intro hfresh m' hm' hid'
    rw [hidem] at hm'
    unfold applyReactionAdded at hm'
    obtain ⟨m, hm, heq⟩ := List.mem_map.1 hm'
    by_cases hid : m.id = mid
    · have hnone : m.reactions.any
          (fun q => q.user_id == r.user_id && q.emoji == r.emoji) = false := by
        rw [List.any_eq_false]
        intro q hq
        have := hfresh m hm hid q hq
        simp [this]
      rw [if_pos hid, hnone] at heq
      simp only [Bool.false_eq_true, if_false] at heq
      have hreacts : m'.reactions = m.reactions ++ [r] := by
        rw [← heq]
      have hfreshm := hfresh m hm hid
      constructor
      · rw [hreacts, List.filter_append]
        have h1 : m.reactions.filter
            (fun q => q.user_id == r.user_id && q.emoji == r.emoji) = [] := by
          rw [List.filter_eq_nil_iff]
          intro q hq
          have := hfreshm q hq
          simp [this]
        rw [h1]
        simp
      · rw [hreacts, groupReactions_append_fresh me m.reactions r hfreshm,
          List.filter_append]
        have hfree : ∀ g ∈ groupReactions me m.reactions, g.emoji ≠ r.emoji :=
          foldl_groups_emoji_free me m.reactions r.emoji [] (by simp) hfreshm
        have h1 : (groupReactions me m.reactions).filter
            (fun g => g.emoji == r.emoji) = [] := by
          rw [List.filter_eq_nil_iff]
          intro g hg
          simpa using hfree g hg
        rw [h1]
        simp
    · rw [if_neg hid] at heq
      rw [← heq] at hid'
      exact absurd hid' hid

/-- Witness for C6 at a concrete store: double-adding 😀 by user 10 to
message 5 stores one reaction, and the grouped display shows count 1 with
`hasMine = true` for current user 10. -/
theorem reaction_events_spec_witness :
    applyReactionRemoved [⟨5, 1, 10, none, 0, []⟩] 5 4 ("x") = [⟨5, 1, 10, none, 0, []⟩] ∧
    (((⟨5, 1, 10, none, 0, [⟨10, "x", "alice", none⟩]⟩ : Message).reactions.filter
        (fun q => q.user_id == 10 && q.emoji == "x")).length = 1 ∧
     (groupReactions (some 10)
        (⟨5, 1, 10, none, 0, [⟨10, "x", "alice", none⟩]⟩ : Message).reactions).filter
        (fun g => g.emoji == "x") =
       [⟨"x", 1, ["alice"], [none], some 10 == some 10⟩]) :=
  ⟨(reaction_events_spec [⟨5, 1, 10, none, 0, []⟩] 5 ⟨10, "x", "alice", none⟩
      4 ("x") (some 10)).2.1 (by decide),
   (reaction_events_spec [⟨5, 1, 10, none, 0, []⟩] 5 ⟨10, "x", "alice", none⟩
      4 ("x") (some 10)).2.2 (by decide)
      ⟨5, 1, 10, none, 0, [⟨10, "x", "alice", none⟩]⟩ (by decide) rfl⟩

/-!
### C5 — history merge
-/

lemma insertMapEntry_keys_mem (acc : List (Nat × Message)) (m : Message) (k : Nat) :
    k ∈ (insertMapEntry acc m).map (fun p => p.1) ↔
      (k ∈ acc.map (fun p => p.1) ∨ k = m.id) := by
  unfold insertMapEntry
  cases h : acc.any (fun p => p.1 == m.id) with
  | true =>
      simp only [h, if_true, List.map_map]
      have hkeys : acc.map ((fun p : Nat × Message => p.1) ∘
          (fun p => if p.1 == m.id then (p.1, m) else p)) =
          acc.map (fun p => p.1) := by
        apply List.map_congr_left
        intro p _
        simp only [Function.comp_apply]
        by_cases hp : (p.1 == m.id) = true
        · rw [if_pos hp]
        · rw [if_neg hp]
      rw [hkeys]
      have hmem : m.id ∈ acc.map (fun p => p.1) := by
        obtain ⟨p, hp, hpk⟩ := List.any_eq_true.1 h
        exact List.mem_map.2 ⟨p, hp, by simpa using hpk⟩
      constructor
      · exact fun hk => Or.inl hk
      · rintro (hk | rfl)
        · exact hk
        · exact hmem
  | false =>
      simp only [h, Bool.false_eq_true, if_false, List.map_append]
      simp [List.mem_append]

lemma insertMapEntry_keys_nodup (acc : List (Nat × Message)) (m : Message)
    (h : (acc.map (fun p => p.1)).Nodup) :
    ((insertMapEntry acc m).map (fun p => p.1)).Nodup := by
  unfold insertMapEntry
  cases hany : acc.any (fun p => p.1 == m.id) with
  | true =>
      simp only [hany, if_true, List.map_map]
      have hkeys : acc.map ((fun p : Nat × Message => p.1) ∘
          (fun p => if p.1 == m.id then (p.1, m) else p)) =
          acc.map (fun p => p.1) := by
        apply List.map_congr_left
        intro p _
        simp only [Function.comp_apply]
        by_cases hp : (p.1 == m.id) = true
        · rw [if_pos hp]
        · rw [if_neg hp]
      rw [hkeys]
      exact h
  | false =>
      simp only [hany, Bool.false_eq_true, if_false, List.map_append]
      rw [List.nodup_append]
      refine ⟨h, by simp, ?_⟩
      intro k hk hk'
      have hkid : k = m.id := by simpa using hk'
      subst hkid
      obtain ⟨p, hp, hpk⟩ := List.mem_map.1 hk
      have := List.any_eq_false.1 hany p hp
      simp [hpk] at this

lemma insertMapEntry_snd_id (acc : List (Nat × Message)) (m : Message)
    (h : ∀ p ∈ acc, (p.2).id = p.1) :
    ∀ p ∈ insertMapEntry acc m, (p.2).id = p.1 := by
  intro p hp
  unfold insertMapEntry at hp
  cases hany : acc.any (fun q => q.1 == m.id) with
  | true =>
      rw [hany, if_pos rfl] at hp
      obtain ⟨q, hq, hqe⟩ := List.mem_map.1 hp
      by_cases hqk : (q.1 == m.id) = true
      · rw [if_pos hqk] at hqe
        rw [← hqe]
        exact (beq_iff_eq.1 hqk).symm
      · rw [if_neg hqk] at hqe
        rw [← hqe]
        exact h q hq
  | false =>
      rw [hany] at hp
      simp only [Bool.false_eq_true, if_false] at hp
      rcases List.mem_append.1 hp with hmem | hmem
      · exact h p hmem
      · have : p = (m.id, m) := by simpa using hmem
        rw [this]

lemma insertMapEntry_snd_mem (acc : List (Nat × Message)) (m : Message)
    (S : List Message) (hacc : ∀ p ∈ acc, (p.2) ∈ S) (hm : m ∈ S) :
    ∀ p ∈ insertMapEntry acc m, (p.2) ∈ S := by
  intro p hp
  unfold insertMapEntry at hp
  cases hany : acc.any (fun q => q.1 == m.id) with
  | true =>
      rw [hany, if_pos rfl] at hp
      obtain ⟨q, hq, hqe⟩ := List.mem_map.1 hp
      by_cases hqk : (q.1 == m.id) = true
      · rw [if_pos hqk] at hqe
        rw [← hqe]
        exact hm
      · rw [if_neg hqk] at hqe
        rw [← hqe]
        exact hacc q hq
  | false =>
      rw [hany] at hp
      simp only [Bool.false_eq_true, if_false] at hp
      rcases List.mem_append.1 hp with hmem | hmem
      · exact hacc p hmem
      · have : p = (m.id, m) := by simpa using hmem
        rw [this]
        exact hm

lemma foldl_insertMapEntry_keys_mem (l : List Message) :
    ∀ (acc : List (Nat × Message)) (k : Nat),
      k ∈ ((l.foldl insertMapEntry acc).map (fun p => p.1)) ↔
        (k ∈ acc.map (fun p => p.1) ∨ k ∈ l.map (fun m => m.id)) := by
  induction l with
  | nil => simp
  | cons m l ih =>
      intro acc k
      simp only [List.foldl_cons]
      rw [ih (insertMapEntry acc m) k, insertMapEntry_keys_mem]
      simp only [List.map_cons, List.mem_cons]
      tauto

lemma foldl_insertMapEntry_keys_nodup (l : List Message) :
    ∀ acc : List (Nat × Message), (acc.map (fun p => p.1)).Nodup →
      ((l.foldl insertMapEntry acc).map (fun p => p.1)).Nodup := by
  induction l with
  | nil => exact fun acc h => h
  | cons m l ih =>
      intro acc h
      simp only [List.foldl_cons]
      exact ih (insertMapEntry acc m) (insertMapEntry_keys_nodup acc m h)

lemma foldl_insertMapEntry_snd_id (l : List Message) :
    ∀ acc : List (Nat × Message), (∀ p ∈ acc, (p.2).id = p.1) →
      ∀ p ∈ l.foldl insertMapEntry acc, (p.2).id = p.1 := by
  induction l with
  | nil => exact fun acc h => h
  | cons m l ih =>
      intro acc h
      simp only [List.foldl_cons]
      exact ih (insertMapEntry acc m) (insertMapEntry_snd_id acc m h)

lemma foldl_insertMapEntry_snd_mem (l : List Message) (S : List Message)
    (hl : ∀ m ∈ l, m ∈ S) :
    ∀ acc : List (Nat × Message), (∀ p ∈ acc, (p.2) ∈ S) →
      ∀ p ∈ l.foldl insertMapEntry acc, (p.2) ∈ S := by
  induction l with
  | nil => exact fun acc h => h
  | cons m l ih =>
      intro acc h
      simp only [List.foldl_cons]
      exact ih (fun q hq => hl q (List.mem_cons_of_mem _ hq)) (insertMapEntry acc m)
        (insertMapEntry_snd_mem acc m S h (hl m (by simp)))

lemma jsMapValues_ids (ms : List Message) :
    (jsMapValues ms).map (fun m => m.id) =
      (ms.foldl insertMapEntry []).map (fun p => p.1) := by
  unfold jsMapValues
  rw [List.map_map]
  apply List.map_congr_left
  intro p hp
  exact foldl_insertMapEntry_snd_id ms [] (by simp) p hp

lemma jsMapValues_ids_nodup (ms : List Message) :
    ((jsMapValues ms).map (fun m => m.id)).Nodup := by
  rw [jsMapValues_ids]
  exact foldl_insertMapEntry_keys_nodup ms [] (by simp)

lemma jsMapValues_ids_mem (ms : List Message) (i : Nat) :
    i ∈ (jsMapValues ms).map (fun m => m.id) ↔ i ∈ ms.map (fun m => m.id) := by
  rw [jsMapValues_ids, foldl_insertMapEntry_keys_mem]
  simp

lemma jsMapValues_subset (ms : List Message) :
    ∀ x ∈ jsMapValues ms, x ∈ ms := by
  intro x hx
  unfold jsMapValues at hx
  obtain ⟨p, hp, hpe⟩ := List.mem_map.1 hx
  rw [← hpe]
  exact foldl_insertMapEntry_snd_mem ms ms (fun m hm => hm) [] (by simp) p hp

/-- C5: the history-merge effect produces a per-channel list that is
strictly ascending by id (hence no two stored messages share an id), whose
id set is exactly the union of the ids of the fetched history pages and
the live list, and whose every element comes from one of the two inputs —
`dedupe-by-id(sort-by-id(existing ∪ incoming))`. -/
theorem mergeHistory_spec (history prev : List Message) :
    List.Pairwise (fun a b => a.id < b.id) (mergeHistory history prev) ∧
    (∀ i, i ∈ (mergeHistory history prev).map (fun m => m.id) ↔
      (i ∈ history.map (fun m => m.id) ∨ i ∈ prev.map (fun m => m.id))) ∧
    (∀ m ∈ mergeHistory history prev, m ∈ history ∨ m ∈ prev) := by
  have hperm : List.Perm (mergeHistory history prev) (jsMapValues (history ++ prev)) :=
    List.perm_insertionSort idLe (jsMapValues (history ++ prev))
  have hsorted : List.Pairwise idLe (mergeHistory history prev) :=
    List.sorted_insertionSort idLe (jsMapValues (history ++ prev))
  have hnodup : ((mergeHistory history prev).map (fun m => m.id)).Nodup :=
    ((hperm.map (fun m => m.id)).nodup_iff).2 (jsMapValues_ids_nodup (history ++ prev))
  refine ⟨?_, ?_, ?_⟩
  · have hne : List.Pairwise (fun a b : Message => a.id ≠ b.id)
        (mergeHistory history prev) := List.pairwise_map.1 hnodup
    exact (hsorted.and hne).imp
      (fun h => Nat.lt_of_le_of_ne h.1 h.2)
  · intro i
    rw [List.mem_map]
    constructor
    · rintro ⟨m, hm, rfl⟩
      have hmem : m ∈ jsMapValues (history ++ prev) := hperm.mem_iff.1 hm
      have : m.id ∈ (history ++ prev).map (fun m => m.id) :=
        (jsMapValues_ids_mem _ _).1 (List.mem_map.2 ⟨m, hmem, rfl⟩)
      simpa [List.map_append, List.mem_append] using this
    · intro hi
      have : i ∈ (history ++ prev).map (fun m => m.id) := by
        simpa [List.map_append, List.mem_append] using hi
      have : i ∈ (jsMapValues (history ++ prev)).map (fun m => m.id) :=
        (jsMapValues_ids_mem _ _).2 this
      obtain ⟨m, hm, hmi⟩ := List.mem_map.1 this
      exact ⟨m, hperm.mem_iff.2 hm, hmi⟩
  · intro m hm
    have hmem : m ∈ jsMapValues (history ++ prev) := hperm.mem_iff.1 hm
    have := jsMapValues_subset (history ++ prev) m hmem
    exact List.mem_append.1 this

end Koordinator
